import Mathlib

/-!
# BaseTrackPlayer: the deck orchestrator of `src/mixxx/src/basetrackplayer.cpp`

A shallow embedding of the slots of `BaseTrackPlayer` (`slotLoadTrack`,
`slotLoadFailed`, `slotUnloadTrack`, `slotFinishLoading`, the destructor and
`getLoadedTrack`) as functions on an explicit deck state.

Conventions of the embedding:

* a `TrackPointer` (a `QSharedPointer<TrackInfoObject>`) is an optional track
  identity; the track objects themselves live in a store `tracks` indexed by
  identity, so that two pointers to the same track alias;
* a control object is the value it holds; the loop controls hold the integers
  the code reads through `int loopStart = m_pLoopInPoint->get()`;
* C++ `int` values are mathematical integers: the only arithmetic of the slots is
  `loopEnd - loopStart` (line 134) and `loopStart + length` (line 231) on sample
  positions, and signed overflow is undefined in the source language. The model
  computes both exactly, which is what the program computes whenever the operands and
  the result are values of an `int` (`isIntValue`); the theorems that state the value
  of such a result assume so;
* the slots that other components connect to the signals are not part of this class
  and are not run;
* signals, the calls to `setLoaded`, to `PlayerInfo::setTrackInfo` and to
  `QMessageBox::warning` are appended, in program order, to the event trace of
  the state;
* dereferencing an empty pointer makes the slot return `none`.
-/

namespace BaseTrackPlayer

/-! ## Data model -/

/-- Identity of a `TrackInfoObject` (the address held by a `TrackPointer`). -/
abbrev TrackId := Nat

/-- A `TrackPointer`; `none` is the empty (null) shared pointer. -/
abbrev TrackPointer := Option TrackId

/-- Modelled from the spec: the cue type enumeration of `cue.h`, which is not part
of the sources ("type ∈ {REGULAR, LOOP, …}"). -/
inductive CueType where
  | REGULAR
  | LOOP
  | OTHER (code : Nat)
deriving DecidableEq, Repr

/-- Modelled from the spec: a cue point of `cue.h`, "{type, position, length}". -/
structure Cue where
  type : CueType
  position : Int
  length : Int
deriving DecidableEq, Repr

/-- Modelled from the spec: the fields of a `Cue` that `TrackInfoObject::addCue`
has just created; the three of them are overwritten by the caller before the cue is
read. -/
def Cue.fresh : Cue := { type := CueType.OTHER 0, position := -1, length := 0 }

/-- The setter `Cue::setType`. -/
def Cue.setType (c : Cue) (type : CueType) : Cue := { c with type := type }

/-- The setter `Cue::setPosition`. -/
def Cue.setPosition (c : Cue) (position : Int) : Cue := { c with position := position }

/-- The setter `Cue::setLength`. -/
def Cue.setLength (c : Cue) (length : Int) : Cue := { c with length := length }

/-- Modelled from the spec: the mutable fields of a track entity
(`trackinfoobject.h` is not part of the sources). -/
structure Track where
  location : String
  duration : Int
  bpm : Rat
  replayGain : Rat
  headerParsed : Bool
  timesPlayed : Int
  cuePoints : List Cue
  visualResampleRate : Rat
  loaded : Bool

/-- Modelled from the spec: what the external Metadata Parser
(`SoundSourceProxy::ParseHeader`) extracts from a track's file: header metadata
(duration, tempo, replay gain) and the header-parsed flag. -/
structure HeaderInfo where
  duration : Int
  bpm : Rat
  replayGain : Rat
  headerParsed : Bool

/-- Effect of `SoundSourceProxy::ParseHeader` on the track object. -/
def Track.applyHeader (t : Track) (h : HeaderInfo) : Track :=
  { t with duration := h.duration, bpm := h.bpm, replayGain := h.replayGain,
           headerParsed := h.headerParsed }

/-- Modelled from the spec: `TrackInfoObject::incTimesPlayed`, "increment play counter". -/
def Track.incTimesPlayed (t : Track) : Track := { t with timesPlayed := t.timesPlayed + 1 }

/-- The setter `TrackInfoObject::setVisualResampleRate`. -/
def Track.setVisualResampleRate (t : Track) (r : Rat) : Track :=
  { t with visualResampleRate := r }

/-- The setter `TrackInfoObject::setLoaded`. -/
def Track.setLoaded (t : Track) (flag : Bool) : Track := { t with loaded := flag }

/-- Modelled from the spec: `TrackInfoObject::addCue` creates a cue, appends it to the
track's ordered collection and returns it (here: its index in the list). -/
def Track.addCue (t : Track) : Track × Nat :=
  ({ t with cuePoints := t.cuePoints ++ [Cue.fresh] }, t.cuePoints.length)

/-- Applies `f` to the cue object at index `i` (a call `pCue->f()` through the
pointer stored at that place of the list). -/
def modifyCue : List Cue → Nat → (Cue → Cue) → List Cue
  | [], _, _ => []
  | c :: cs, 0, f => f c :: cs
  | c :: cs, i + 1, f => c :: modifyCue cs i f

/-- A call through a `Cue*` that belongs to track `t`. -/
def Track.modifyCue (t : Track) (i : Nat) (f : Cue → Cue) : Track :=
  { t with cuePoints := BaseTrackPlayer.modifyCue t.cuePoints i f }

/-- Modelled from the spec: `even` of `mathstuff.h` (not part of the sources), the
even-alignment test, with the remainder of C++ (truncated division). -/
def even (n : Int) : Bool := if Int.tmod n 2 != 0 then false else true

/-- The least value of a C++ `int` (32 bits, as on the platforms the program is built
for). -/
def INT_MIN : Int := -2147483648

/-- The greatest value of a C++ `int` (32 bits). -/
def INT_MAX : Int := 2147483647

/-- The integer `x` is a value of the C++ type `int`. -/
def isIntValue (x : Int) : Prop := INT_MIN ≤ x ∧ x ≤ INT_MAX

/-- The three signals of `BaseTrackPlayer`. -/
inductive Signal where
  | unloadingTrack (track : TrackPointer)
  | loadTrack (track : TrackPointer)
  | newTrackLoaded (track : TrackPointer)
deriving DecidableEq, Repr

/-- Observable actions of the deck, in program order. -/
inductive Event where
  | setLoaded (track : TrackId) (flag : Bool)
  | emitted (signal : Signal)
  | setTrackInfo (track : TrackPointer)
  | warning (reason : String)
deriving DecidableEq, Repr

/-- State of one `BaseTrackPlayer` together with the track objects it can reach. -/
structure Deck where
  tracks : TrackId → Track
  m_pLoadedTrack : TrackPointer
  m_pLoopInPoint : Int
  m_pLoopOutPoint : Int
  m_pDuration : Int
  m_pBPM : Rat
  m_pReplayGain : Rat
  visualResample : Rat
  bpmConnections : List TrackId
  replayGainConnections : List TrackId
  events : List Event

/-- A call `track->f()` on the track object with identity `id`. -/
def Deck.onTrack (d : Deck) (id : TrackId) (f : Track → Track) : Deck :=
  { d with tracks := Function.update d.tracks id (f (d.tracks id)) }

/-- Appends an observable action to the trace. -/
def Deck.record (d : Deck) (e : Event) : Deck := { d with events := d.events ++ [e] }

/-- The signals emitted so far, in order. -/
def Deck.signals (d : Deck) : List Signal :=
  d.events.filterMap fun e => match e with
    | Event.emitted s => some s
    | _ => none

/-- The updates of the Now-Playing Registry made so far, in order. -/
def Deck.registryUpdates (d : Deck) : List TrackPointer :=
  d.events.filterMap fun e => match e with
    | Event.setTrackInfo t => some t
    | _ => none

/-! ## The slots -/

/-- State right after the constructor: `m_pLoadedTrack()` is empty, `m_pDuration` is a
newly created control (value 0), the other controls are looked up and hold whatever
their owners gave them. -/
def construct (tracks : TrackId → Track) (loopIn loopOut : Int)
    (bpm replayGain visualResample : Rat) : Deck :=
  { tracks := tracks, m_pLoadedTrack := none,
    m_pLoopInPoint := loopIn, m_pLoopOutPoint := loopOut,
    m_pDuration := 0, m_pBPM := bpm, m_pReplayGain := replayGain,
    visualResample := visualResample,
    bpmConnections := [], replayGainConnections := [], events := [] }

/-- The scan of lines 120-128: `pLoopCue` after the iterator has run through the
cue list, `i` being the index of the next cue and `pLoopCue` the current value of
the variable (`none` for `NULL`). -/
def scanLoopCue : List Cue → Nat → Option Nat → Option Nat
  | [], _, pLoopCue => pLoopCue
  | pCue :: rest, i, pLoopCue =>
      scanLoopCue rest (i + 1) (if pCue.type = CueType.LOOP then some i else pLoopCue)

/-- Lines 120-134: saves the window in a loop cue of the track, creating the cue when
the scan found none. The length `loopEnd - loopStart` is the exact difference: the
result of the `int` subtraction of line 134 whenever that does not overflow. -/
def saveLoopCue (t : Track) (loopStart loopEnd : Int) : Track :=
  let cuePoints := t.cuePoints
  let found : Track × Nat :=
    match scanLoopCue cuePoints 0 none with
    | some pLoopCue => (t, pLoopCue)
    | none =>
        let created := t.addCue
        (created.1.modifyCue created.2 (fun c => c.setType CueType.LOOP), created.2)
  let t1 := found.1.modifyCue found.2 (fun c => c.setPosition loopStart)
  t1.modifyCue found.2 (fun c => c.setLength (loopEnd - loopStart))

/-- The `disconnect` calls on the loaded track (lines 141-142 and 176-177). -/
def Deck.disconnectTrack (d : Deck) (id : TrackId) : Deck :=
  { d with bpmConnections := d.bpmConnections.filter (fun s => s != id),
           replayGainConnections := d.replayGainConnections.filter (fun s => s != id) }

/-- The `connect` calls of lines 152-157; connecting a null sender connects nothing. -/
def Deck.connectTrack (d : Deck) (track : TrackPointer) : Deck :=
  match track with
  | none => d
  | some id => { d with bpmConnections := d.bpmConnections ++ [id],
                        replayGainConnections := d.replayGainConnections ++ [id] }

/-- `BaseTrackPlayer::slotLoadTrack`. -/
def slotLoadTrack (d : Deck) (track : TrackPointer) (bStartFromEndPos : Bool) : Deck :=
  let _ := bStartFromEndPos
  let d1 :=
    match d.m_pLoadedTrack with
    | some old =>
        let loopStart := d.m_pLoopInPoint
        let loopEnd := d.m_pLoopOutPoint
        let d2 :=
          if loopStart ≠ -1 ∧ loopEnd ≠ -1 ∧
              even loopStart = true ∧ even loopEnd = true ∧ loopStart ≤ loopEnd then
            d.onTrack old (fun t => saveLoopCue t loopStart loopEnd)
          else d
        let d3 := d2.disconnectTrack old
        let d4 := (d3.onTrack old (fun t => t.setLoaded false)).record (Event.setLoaded old false)
        d4.record (Event.emitted (Signal.unloadingTrack (some old)))
    | none => d
  let d5 := { d1 with m_pLoadedTrack := track }
  let d6 := d5.connectTrack track
  d6.record (Event.emitted (Signal.loadTrack track))

/-- `BaseTrackPlayer::slotLoadFailed`; `none` when `m_pLoadedTrack` or `track` is
empty (both are dereferenced). -/
def slotLoadFailed (d : Deck) (track : TrackPointer) (reason : String) : Option Deck :=
  match d.m_pLoadedTrack with
  | none => none
  | some cur =>
      let d1 := (d.onTrack cur (fun t => t.setLoaded false)).record (Event.setLoaded cur false)
      match track with
      | none => none
      | some _ => some (d1.record (Event.warning reason))

/-- `BaseTrackPlayer::slotUnloadTrack`; the argument is ignored by the code. -/
def slotUnloadTrack (d : Deck) (_track : TrackPointer) : Deck :=
  let d1 :=
    match d.m_pLoadedTrack with
    | some cur =>
        let d2 := d.disconnectTrack cur
        let d3 := (d2.onTrack cur (fun t => t.setLoaded false)).record (Event.setLoaded cur false)
        d3.record (Event.emitted (Signal.unloadingTrack (some cur)))
    | none => d
  let d4 := { d1 with m_pDuration := 0, m_pBPM := 0, m_pReplayGain := 0,
                      m_pLoopInPoint := -1, m_pLoopOutPoint := -1,
                      m_pLoadedTrack := none }
  d4.record (Event.setTrackInfo d4.m_pLoadedTrack)

/-- The scan of lines 225-238: the loop controls after the iterator has run through
`trackCues`, with its `break` at the first LOOP cue that passes the test. The end
`loopStart + length` is the exact sum: the result of the `int` addition of line 231
whenever that does not overflow. -/
def restoreLoop (d : Deck) : List Cue → Deck
  | [] => d
  | pCue :: rest =>
      if pCue.type = CueType.LOOP then
        let loopStart := pCue.position
        let loopEnd := loopStart + pCue.length
        if loopStart ≠ -1 ∧ loopEnd ≠ -1 ∧ even loopStart = true ∧ even loopEnd = true then
          { d with m_pLoopInPoint := loopStart, m_pLoopOutPoint := loopEnd }
        else restoreLoop d rest
      else restoreLoop d rest

/-- `BaseTrackPlayer::slotFinishLoading`, `ParseHeader` being the external
`SoundSourceProxy::ParseHeader`; `none` when `m_pLoadedTrack` or `pTrackInfoObject`
is empty (both are dereferenced). -/
def slotFinishLoading (ParseHeader : Track → HeaderInfo) (d : Deck)
    (pTrackInfoObject : TrackPointer) : Option Deck :=
  match d.m_pLoadedTrack with
  | none => none
  | some cur =>
      let d1 :=
        if (d.tracks cur).headerParsed = false then
          d.onTrack cur (fun t => t.applyHeader (ParseHeader t))
        else d
      let d2 := d1.onTrack cur Track.incTimesPlayed
      let d3 := d2.onTrack cur (fun t => t.setVisualResampleRate d2.visualResample)
      let d4 := { d3 with m_pDuration := (d3.tracks cur).duration,
                          m_pBPM := (d3.tracks cur).bpm,
                          m_pReplayGain := (d3.tracks cur).replayGain }
      let d5 := d4.record (Event.setTrackInfo d4.m_pLoadedTrack)
      let d6 := { d5 with m_pLoopInPoint := -1, m_pLoopOutPoint := -1 }
      match pTrackInfoObject with
      | none => none
      | some p =>
          let trackCues := (d6.tracks p).cuePoints
          let d7 := restoreLoop d6 trackCues
          some (d7.record (Event.emitted (Signal.newTrackLoaded d7.m_pLoadedTrack)))

/-- The destructor `BaseTrackPlayer::~BaseTrackPlayer`: what is left of the state once
the controls are deleted (the track store and the trace). -/
def destructor (d : Deck) : Deck :=
  match d.m_pLoadedTrack with
  | some cur =>
      let d1 := (d.onTrack cur (fun t => t.setLoaded false)).record (Event.setLoaded cur false)
      let d2 := d1.record (Event.emitted (Signal.unloadingTrack (some cur)))
      { d2 with m_pLoadedTrack := none }
  | none => d

/-- `BaseTrackPlayer::getLoadedTrack`. -/
def getLoadedTrack (d : Deck) : TrackPointer := d.m_pLoadedTrack

/-! ## Auxiliary definitions used by the statements and proofs -/

/-- The test of lines 229 and 232 on one cue: it is a LOOP cue and its window passes
the guard of the restore scan. -/
def Cue.restorable (c : Cue) : Bool :=
  decide (c.type = CueType.LOOP ∧ c.position ≠ -1 ∧ c.position + c.length ≠ -1 ∧
    even c.position = true ∧ even (c.position + c.length) = true)

/-- A track object with the given cue list, duration, tempo and replay gain, whose
header has been parsed. -/
def sampleTrack (cues : List Cue) (duration : Int) (bpm replayGain : Rat) : Track :=
  { location := "track.mp3", duration := duration, bpm := bpm, replayGain := replayGain,
    headerParsed := true, timesPlayed := 0, cuePoints := cues,
    visualResampleRate := 0, loaded := true }

/-- A metadata parser that finds in the file the values the track object already has. -/
def sampleParseHeader : Track → HeaderInfo :=
  fun t => { duration := t.duration, bpm := t.bpm, replayGain := t.replayGain,
             headerParsed := true }

/-- A deck over the given track store, holding `loaded` with the window `(loopIn, loopOut)`
in its loop controls. -/
def sampleDeck (tracks : TrackId → Track) (loaded : TrackPointer) (loopIn loopOut : Int) :
    Deck :=
  { construct tracks loopIn loopOut 0 0 0 with m_pLoadedTrack := loaded }

/-- Track store for the swap examples: track 0 carries two LOOP cues, track 1 none. -/
def twoLoopCueTracks : TrackId → Track :=
  fun id =>
    if id = 0 then
      sampleTrack [{ type := CueType.LOOP, position := 0, length := 4 },
                   { type := CueType.LOOP, position := 100, length := 2 }] 180000 128 1
    else sampleTrack [] 200000 120 1

/-- Track store for the swap witness: the first LOOP cue of track 0 is misaligned. -/
def misalignedFirstLoopTracks : TrackId → Track :=
  fun id =>
    if id = 0 then
      sampleTrack [{ type := CueType.REGULAR, position := 7, length := 0 },
                   { type := CueType.LOOP, position := 3, length := 4 },
                   { type := CueType.LOOP, position := 100, length := 2 }] 180000 128 1
    else sampleTrack [{ type := CueType.LOOP, position := 6, length := 2 }] 200000 120 1

/-- Track store for the superseded-load example: track 0 carries the LOOP cue (2, 2) and
lasts 180000, track 1 has no cue and lasts 200000. -/
def supersededLoadTracks : TrackId → Track :=
  fun id =>
    if id = 0 then
      sampleTrack [{ type := CueType.LOOP, position := 2, length := 2 }] 180000 128 1
    else sampleTrack [] 200000 120 1

/-- A freshly constructed deck after `slotLoadTrack(0)` and then `slotLoadTrack(1)`. -/
def supersededLoadDeck : Deck :=
  slotLoadTrack (slotLoadTrack (construct supersededLoadTracks (-1) (-1) 0 0 0) (some 0) false)
    (some 1) false

/-- Track store with one track whose LOOP cue has a negative length. -/
def invertedLoopTracks : TrackId → Track :=
  fun _ => sampleTrack [{ type := CueType.LOOP, position := 10, length := -4 }] 180000 128 1

/-- Track store whose tracks carry a regular cue and one LOOP cue. -/
def oneLoopCueTracks : TrackId → Track :=
  fun _ => sampleTrack [{ type := CueType.REGULAR, position := 7, length := 0 },
                        { type := CueType.LOOP, position := 4, length := 4 }] 180000 128 1

/-- Track store whose tracks carry a misaligned LOOP cue followed by two aligned ones. -/
def threeLoopCueTracks : TrackId → Track :=
  fun _ => sampleTrack [{ type := CueType.LOOP, position := 3, length := 5 },
                        { type := CueType.LOOP, position := 8, length := 6 },
                        { type := CueType.LOOP, position := 100, length := 2 }] 180000 128 1

/-- Track store whose tracks carry regular cues only. -/
def noLoopCueTracks : TrackId → Track :=
  fun _ => sampleTrack [{ type := CueType.REGULAR, position := 7, length := 0 }] 180000 128 1

/-- The empty-deck sentinel invariant of the data model: when no track is held, the loop
controls read -1 and the duration, tempo and replay-gain controls read 0. -/
def sentinelInvariant (d : Deck) : Prop :=
  d.m_pLoadedTrack = none →
    d.m_pLoopInPoint = -1 ∧ d.m_pLoopOutPoint = -1 ∧
    d.m_pDuration = 0 ∧ d.m_pBPM = 0 ∧ d.m_pReplayGain = 0

/-- An empty deck whose loop controls hold the window (10, 20). -/
def emptyDeckWithWindow : Deck := construct noLoopCueTracks 10 20 0 0 0

/-- A deck holding track 0, which has no cue, with the window (2, 4) in its loop
controls. -/
def deckWithUnsavedWindow : Deck :=
  sampleDeck (fun _ => sampleTrack [] 180000 128 1) (some 0) 2 4

/-- Number of LOOP cues of a cue list. -/
def loopCueCount (cs : List Cue) : Nat :=
  cs.countP (fun c => decide (c.type = CueType.LOOP))

/-- Track store of the finalisation scenario: every track lasts 180000 at tempo 128 and
carries the single LOOP cue (88200, 44100). -/
def scenarioTracks : TrackId → Track :=
  fun _ => sampleTrack [{ type := CueType.REGULAR, position := 7, length := 0 },
                        { type := CueType.LOOP, position := 88200, length := 44100 }]
    180000 128 1

/-! ## Auxiliary lemmas -/

theorem even_iff (n : Int) : even n = true ↔ n % 2 = 0 := by
  have h : Int.tmod n 2 = 0 ↔ n % 2 = 0 := by
    rw [← Int.dvd_iff_tmod_eq_zero]
    omega
  unfold even
  by_cases h0 : Int.tmod n 2 = 0
  · simp [h0, h.mp h0]
  · have : ¬ n % 2 = 0 := fun hn => h0 (h.mpr hn)
    simp [h0, this]

theorem restorable_iff (c : Cue) :
    c.restorable = true ↔
      c.type = CueType.LOOP ∧ c.position % 2 = 0 ∧ (c.position + c.length) % 2 = 0 := by
  unfold Cue.restorable
  simp only [decide_eq_true_eq, even_iff]
  constructor
  · rintro ⟨h1, _, _, h4, h5⟩
    exact ⟨h1, h4, h5⟩
  · rintro ⟨h1, h4, h5⟩
    refine ⟨h1, ?_, ?_, h4, h5⟩ <;> omega

theorem restoreLoop_eq (d : Deck) (cs : List Cue) :
    restoreLoop d cs =
      match cs.find? Cue.restorable with
      | some c => { d with m_pLoopInPoint := c.position,
                           m_pLoopOutPoint := c.position + c.length }
      | none => d := by
  induction cs with
  | nil => rfl
  | cons c cs ih =>
    by_cases hc : c.restorable = true
    · have hc2 := hc
      simp only [Cue.restorable, decide_eq_true_eq] at hc2
      simp [restoreLoop, hc, hc2]
    · have hc2 := hc
      simp only [Cue.restorable, decide_eq_true_eq] at hc2
      rw [List.find?_cons_of_neg _ hc, ← ih]
      by_cases ht : c.type = CueType.LOOP
      · have : ¬ (c.position ≠ -1 ∧ c.position + c.length ≠ -1 ∧
            even c.position = true ∧ even (c.position + c.length) = true) :=
          fun h => hc2 ⟨ht, h⟩
        simp only [restoreLoop, ht, if_true, this, if_false]
      · simp only [restoreLoop, ht, if_false]

theorem scanLoopCue_no_loop (cs : List Cue) (i : Nat) (acc : Option Nat)
    (h : ∀ c ∈ cs, c.type ≠ CueType.LOOP) : scanLoopCue cs i acc = acc := by
  induction cs generalizing i acc with
  | nil => rfl
  | cons c cs ih =>
    have hc : c.type ≠ CueType.LOOP := h c (List.mem_cons_self _ _)
    simp only [scanLoopCue, hc, if_false]
    exact ih _ _ (fun x hx => h x (List.mem_cons_of_mem _ hx))

theorem scanLoopCue_last (pre : List Cue) (c : Cue) (post : List Cue) (i : Nat)
    (acc : Option Nat) (hc : c.type = CueType.LOOP)
    (hpost : ∀ x ∈ post, x.type ≠ CueType.LOOP) :
    scanLoopCue (pre ++ c :: post) i acc = some (i + pre.length) := by
  induction pre generalizing i acc with
  | nil =>
    simp only [List.nil_append, scanLoopCue, hc, if_true, List.length_nil, Nat.add_zero]
    exact scanLoopCue_no_loop post _ _ hpost
  | cons p pre ih =>
    rw [List.cons_append, scanLoopCue, ih, List.length_cons]
    congr 1
    omega

theorem last_loop_split (cs : List Cue) :
    (∀ c ∈ cs, c.type ≠ CueType.LOOP) ∨
      ∃ pre c post, cs = pre ++ c :: post ∧ c.type = CueType.LOOP ∧
        ∀ x ∈ post, x.type ≠ CueType.LOOP := by
  induction cs with
  | nil => left; simp
  | cons c cs ih =>
    rcases ih with h | ⟨pre, x, post, hcs, hx, hpost⟩
    · by_cases hc : c.type = CueType.LOOP
      · right
        exact ⟨[], c, cs, rfl, hc, h⟩
      · left
        intro y hy
        rcases List.mem_cons.mp hy with rfl | hy
        · exact hc
        · exact h y hy
    · right
      exact ⟨c :: pre, x, post, by rw [hcs]; rfl, hx, hpost⟩

theorem modifyCue_append (pre : List Cue) (c : Cue) (post : List Cue) (f : Cue → Cue) :
    modifyCue (pre ++ c :: post) pre.length f = pre ++ f c :: post := by
  induction pre with
  | nil => rfl
  | cons p pre ih => rw [List.cons_append, List.length_cons, modifyCue, ih, List.cons_append]

theorem saveLoopCue_no_loop (t : Track) (a b : Int)
    (h : ∀ c ∈ t.cuePoints, c.type ≠ CueType.LOOP) :
    (saveLoopCue t a b).cuePoints =
      t.cuePoints ++ [{ type := CueType.LOOP, position := a, length := b - a }] := by
  have hm : ∀ (x : Cue) (f : Cue → Cue),
      modifyCue (t.cuePoints ++ [x]) t.cuePoints.length f = t.cuePoints ++ [f x] :=
    fun x f => modifyCue_append t.cuePoints x [] f
  simp only [saveLoopCue, scanLoopCue_no_loop _ _ _ h, Track.addCue, Track.modifyCue,
    hm, Cue.setType, Cue.setPosition, Cue.setLength, Cue.fresh]

theorem saveLoopCue_last (t : Track) (a b : Int) (pre : List Cue) (c : Cue) (post : List Cue)
    (hcs : t.cuePoints = pre ++ c :: post) (hc : c.type = CueType.LOOP)
    (hpost : ∀ x ∈ post, x.type ≠ CueType.LOOP) :
    (saveLoopCue t a b).cuePoints =
      pre ++ { type := CueType.LOOP, position := a, length := b - a } :: post := by
  have hs : scanLoopCue t.cuePoints 0 none = some pre.length := by
    rw [hcs, scanLoopCue_last pre c post 0 none hc hpost, Nat.zero_add]
  simp only [saveLoopCue, hs]
  simp only [Track.modifyCue, hcs, modifyCue_append, Cue.setPosition, Cue.setLength, hc]

theorem slotLoadTrack_loadedTrack (d : Deck) (track : TrackPointer) (s : Bool) :
    (slotLoadTrack d track s).m_pLoadedTrack = track := by
  cases track <;> rfl

theorem slotLoadTrack_controls (d : Deck) (track : TrackPointer) (s : Bool) :
    (slotLoadTrack d track s).m_pLoopInPoint = d.m_pLoopInPoint ∧
    (slotLoadTrack d track s).m_pLoopOutPoint = d.m_pLoopOutPoint ∧
    (slotLoadTrack d track s).m_pDuration = d.m_pDuration ∧
    (slotLoadTrack d track s).m_pBPM = d.m_pBPM ∧
    (slotLoadTrack d track s).m_pReplayGain = d.m_pReplayGain := by
  unfold slotLoadTrack
  cases track <;> cases d.m_pLoadedTrack <;>
    simp only [Deck.record, Deck.onTrack, Deck.connectTrack, Deck.disconnectTrack] <;>
    first | (split <;> simp) | simp

theorem slotLoadTrack_cuePoints (d : Deck) (track : TrackPointer) (s : Bool) (id : TrackId) :
    ((slotLoadTrack d track s).tracks id).cuePoints =
      if d.m_pLoadedTrack = some id ∧ d.m_pLoopInPoint ≠ -1 ∧ d.m_pLoopOutPoint ≠ -1 ∧
          even d.m_pLoopInPoint = true ∧ even d.m_pLoopOutPoint = true ∧
          d.m_pLoopInPoint ≤ d.m_pLoopOutPoint then
        (saveLoopCue (d.tracks id) d.m_pLoopInPoint d.m_pLoopOutPoint).cuePoints
      else (d.tracks id).cuePoints := by
  unfold slotLoadTrack
  rcases hl : d.m_pLoadedTrack with _ | old
  · cases track <;> simp [Deck.record, Deck.connectTrack]
  · by_cases hg : d.m_pLoopInPoint ≠ -1 ∧ d.m_pLoopOutPoint ≠ -1 ∧
          even d.m_pLoopInPoint = true ∧ even d.m_pLoopOutPoint = true ∧
          d.m_pLoopInPoint ≤ d.m_pLoopOutPoint
    · by_cases hid : old = id
      · subst hid
        cases track <;>
          simp [Deck.record, Deck.connectTrack, Deck.disconnectTrack, Deck.onTrack, hg,
            Track.setLoaded]
      · have hid2 : id ≠ old := fun h => hid h.symm
        cases track <;>
          simp [Deck.record, Deck.connectTrack, Deck.disconnectTrack, Deck.onTrack, hg,
            Track.setLoaded, Function.update, hid, hid2]
    · by_cases hid : old = id
      · subst hid
        cases track <;>
          simp [Deck.record, Deck.connectTrack, Deck.disconnectTrack, Deck.onTrack, hg,
            Track.setLoaded]
      · have hid2 : id ≠ old := fun h => hid h.symm
        cases track <;>
          simp [Deck.record, Deck.connectTrack, Deck.disconnectTrack, Deck.onTrack, hg,
            Track.setLoaded, Function.update, hid, hid2]

theorem update_cuePoints (f : TrackId → Track) (cur id : TrackId) (t : Track)
    (ht : t.cuePoints = (f cur).cuePoints) :
    (Function.update f cur t id).cuePoints = (f id).cuePoints := by
  by_cases h : id = cur
  · subst h
    simp [ht]
  · simp [Function.update, h]

theorem slotFinishLoading_spec (ParseHeader : Track → HeaderInfo) (d : Deck)
    (p cur : TrackId) (h : d.m_pLoadedTrack = some cur) :
    ∃ d', slotFinishLoading ParseHeader d (some p) = some d' ∧
      d'.m_pLoadedTrack = some cur ∧
      (∀ id, (d'.tracks id).cuePoints = (d.tracks id).cuePoints) ∧
      (d'.m_pLoopInPoint, d'.m_pLoopOutPoint) =
        (match ((d.tracks p).cuePoints).find? Cue.restorable with
         | some c => (c.position, c.position + c.length)
         | none => (-1, -1)) ∧
      d'.m_pDuration = (d'.tracks cur).duration ∧
      d'.m_pBPM = (d'.tracks cur).bpm ∧
      d'.m_pReplayGain = (d'.tracks cur).replayGain ∧
      d'.events = d.events ++
        [Event.setTrackInfo (some cur), Event.emitted (Signal.newTrackLoaded (some cur))] := by
  unfold slotFinishLoading
  simp only [h]
  have e1 : (if (d.tracks cur).headerParsed = false then
      d.onTrack cur (fun t => t.applyHeader (ParseHeader t)) else d).m_pLoadedTrack
        = some cur := by
    split <;> simp [Deck.onTrack, h]
  have e2 : (if (d.tracks cur).headerParsed = false then
      d.onTrack cur (fun t => t.applyHeader (ParseHeader t)) else d).events = d.events := by
    split <;> simp [Deck.onTrack]
  have e3 : ∀ id, ((if (d.tracks cur).headerParsed = false then
      d.onTrack cur (fun t => t.applyHeader (ParseHeader t)) else d).tracks id).cuePoints
        = (d.tracks id).cuePoints := by
    intro id
    split
    · exact update_cuePoints _ _ id _ rfl
    · rfl
  generalize (if (d.tracks cur).headerParsed = false then
      d.onTrack cur (fun t => t.applyHeader (ParseHeader t)) else d) = d1 at e1 e2 e3 ⊢
  refine ⟨_, rfl, ?_⟩
  simp only [Deck.record, Deck.onTrack, restoreLoop_eq, Function.update_idem,
    Function.update_same]
  have e4 : ∀ id, (Function.update d1.tracks cur
      ((d1.tracks cur).incTimesPlayed.setVisualResampleRate d1.visualResample) id).cuePoints
        = (d.tracks id).cuePoints := by
    intro id
    rw [← e3 id]
    exact update_cuePoints d1.tracks cur id _ rfl
  rw [e4 p]
  cases hfind : List.find? Cue.restorable (d.tracks p).cuePoints <;>
    simp only [e1, e2, Function.update_same, List.append_assoc, List.singleton_append,
      List.cons_append, List.nil_append, true_and, and_true] <;>
    exact e4

theorem find_saveLoopCue (t : Track) (a b : Int) (ha : a % 2 = 0) (hb : b % 2 = 0)
    (hcues : ∀ c ∈ (t.cuePoints.filter (fun c => decide (c.type = CueType.LOOP))).dropLast,
      ¬ (c.position % 2 = 0 ∧ (c.position + c.length) % 2 = 0)) :
    (saveLoopCue t a b).cuePoints.find? Cue.restorable =
      some { type := CueType.LOOP, position := a, length := b - a } := by
  have hnew : Cue.restorable { type := CueType.LOOP, position := a, length := b - a } = true := by
    rw [restorable_iff]
    refine ⟨rfl, ha, ?_⟩
    show (a + (b - a)) % 2 = 0
    omega
  rcases last_loop_split t.cuePoints with h | ⟨pre, c, post, hcs, hc, hpost⟩
  · rw [saveLoopCue_no_loop t a b h, List.find?_append]
    have hnone : List.find? Cue.restorable t.cuePoints = none := by
      rw [List.find?_eq_none]
      intro x hx hr
      exact h x hx ((restorable_iff x).mp hr).1
    rw [hnone, List.find?_cons_of_pos _ hnew]
    rfl
  · rw [saveLoopCue_last t a b pre c post hcs hc hpost, List.find?_append]
    have hfpost : List.filter (fun c => decide (c.type = CueType.LOOP)) post = [] := by
      rw [List.filter_eq_nil_iff]
      intro x hx
      simpa using hpost x hx
    have hdrop : (t.cuePoints.filter (fun c => decide (c.type = CueType.LOOP))).dropLast
        = pre.filter (fun c => decide (c.type = CueType.LOOP)) := by
      rw [hcs, List.filter_append, List.filter_cons_of_pos (by simpa using hc), hfpost,
        List.dropLast_concat]
    have hnone : List.find? Cue.restorable pre = none := by
      rw [List.find?_eq_none]
      intro x hx hr
      have hx2 := (restorable_iff x).mp hr
      refine hcues x ?_ hx2.2
      rw [hdrop, List.mem_filter]
      exact ⟨hx, by simpa using hx2.1⟩
    rw [hnone, List.find?_cons_of_pos _ hnew]
    rfl

theorem set_append_cons (pre : List Cue) (c x : Cue) (post : List Cue) :
    (pre ++ c :: post).set pre.length x = pre ++ x :: post := by
  induction pre with
  | nil => rfl
  | cons p pre ih => rw [List.cons_append, List.length_cons, List.set_cons_succ, ih,
      List.cons_append]

theorem getElem?_append_cons (pre : List Cue) (c : Cue) (post : List Cue) :
    (pre ++ c :: post)[pre.length]? = some c := by
  induction pre with
  | nil => simp
  | cons p pre ih => rw [List.cons_append, List.length_cons, List.getElem?_cons_succ, ih]

theorem slotUnloadTrack_empty (d : Deck) (t : TrackPointer) (h : d.m_pLoadedTrack = none) :
    slotUnloadTrack d t =
      { d with m_pDuration := 0, m_pBPM := 0, m_pReplayGain := 0,
               m_pLoopInPoint := -1, m_pLoopOutPoint := -1, m_pLoadedTrack := none,
               events := d.events ++ [Event.setTrackInfo none] } := by
  simp only [slotUnloadTrack, h, Deck.record]

theorem slotUnloadTrack_sentinels (d : Deck) (t : TrackPointer) :
    (slotUnloadTrack d t).m_pLoadedTrack = none ∧
    (slotUnloadTrack d t).m_pLoopInPoint = -1 ∧ (slotUnloadTrack d t).m_pLoopOutPoint = -1 ∧
    (slotUnloadTrack d t).m_pDuration = 0 ∧ (slotUnloadTrack d t).m_pBPM = 0 ∧
    (slotUnloadTrack d t).m_pReplayGain = 0 := by
  unfold slotUnloadTrack
  cases d.m_pLoadedTrack <;> simp [Deck.record]

theorem slotLoadFailed_of_loaded (d : Deck) (cur x : TrackId) (reason : String)
    (h : d.m_pLoadedTrack = some cur) :
    slotLoadFailed d (some x) reason =
      some (((d.onTrack cur (fun t => t.setLoaded false)).record
        (Event.setLoaded cur false)).record (Event.warning reason)) := by
  simp only [slotLoadFailed, h]

theorem slotLoadFailed_eq_some (d d' : Deck) (X : TrackPointer) (reason : String)
    (h : slotLoadFailed d X reason = some d') :
    ∃ cur, d.m_pLoadedTrack = some cur ∧
      d' = ((d.onTrack cur (fun t => t.setLoaded false)).record
        (Event.setLoaded cur false)).record (Event.warning reason) := by
  unfold slotLoadFailed at h
  rcases hl : d.m_pLoadedTrack with _ | cur
  · simp [hl] at h
  · cases X with
    | none => simp [hl] at h
    | some x =>
      simp only [hl, Option.some.injEq] at h
      exact ⟨cur, rfl, h.symm⟩

theorem slotFinishLoading_eq_some (ParseHeader : Track → HeaderInfo) (d d' : Deck)
    (p : TrackPointer) (h : slotFinishLoading ParseHeader d p = some d') :
    ∃ cur t, d.m_pLoadedTrack = some cur ∧ p = some t := by
  unfold slotFinishLoading at h
  rcases hl : d.m_pLoadedTrack with _ | cur
  · simp [hl] at h
  · cases p with
    | none => simp [hl] at h
    | some t => exact ⟨cur, t, rfl, rfl⟩

theorem slotLoadTrack_events (d : Deck) (B : TrackPointer) (s : Bool) :
    (slotLoadTrack d B s).events = d.events ++
      (match d.m_pLoadedTrack with
        | some A => [Event.setLoaded A false, Event.emitted (Signal.unloadingTrack (some A))]
        | none => []) ++ [Event.emitted (Signal.loadTrack B)] := by
  unfold slotLoadTrack
  rcases hl : d.m_pLoadedTrack with _ | A
  · cases B <;> simp [Deck.record, Deck.connectTrack]
  · cases B <;>
      simp only [Deck.record, Deck.connectTrack, Deck.disconnectTrack, Deck.onTrack] <;>
      split <;> simp

theorem slotLoadTrack_loaded_flag (d : Deck) (B : TrackPointer) (s : Bool) (A : TrackId)
    (hl : d.m_pLoadedTrack = some A) :
    ((slotLoadTrack d B s).tracks A).loaded = false := by
  unfold slotLoadTrack
  cases B <;>
    simp only [hl, Deck.record, Deck.connectTrack, Deck.disconnectTrack, Deck.onTrack] <;>
    split <;> simp [Track.setLoaded]

theorem restoreLoop_tracks (d : Deck) (cs : List Cue) :
    (restoreLoop d cs).tracks = d.tracks := by
  rw [restoreLoop_eq]
  split <;> rfl

theorem saveLoopCue_fields (t : Track) (a b : Int) :
    (saveLoopCue t a b).duration = t.duration ∧ (saveLoopCue t a b).bpm = t.bpm ∧
    (saveLoopCue t a b).replayGain = t.replayGain ∧
    (saveLoopCue t a b).headerParsed = t.headerParsed := by
  rcases h : scanLoopCue t.cuePoints 0 none with _ | i <;>
    simp [saveLoopCue, h, Track.modifyCue, Track.addCue]

theorem slotLoadTrack_fields (d : Deck) (track : TrackPointer) (s : Bool) (id : TrackId) :
    ((slotLoadTrack d track s).tracks id).duration = (d.tracks id).duration ∧
    ((slotLoadTrack d track s).tracks id).bpm = (d.tracks id).bpm ∧
    ((slotLoadTrack d track s).tracks id).replayGain = (d.tracks id).replayGain ∧
    ((slotLoadTrack d track s).tracks id).headerParsed = (d.tracks id).headerParsed := by
  unfold slotLoadTrack
  rcases hl : d.m_pLoadedTrack with _ | old
  · cases track <;> simp [Deck.record, Deck.connectTrack]
  · by_cases hid : id = old
    · subst hid
      cases track <;>
        simp only [Deck.record, Deck.connectTrack, Deck.disconnectTrack, Deck.onTrack] <;>
        split <;> simp [Track.setLoaded, saveLoopCue_fields]
    · cases track <;>
        simp only [Deck.record, Deck.connectTrack, Deck.disconnectTrack, Deck.onTrack] <;>
        split <;> simp [Function.update, hid]

theorem slotFinishLoading_parsed (ParseHeader : Track → HeaderInfo) (d d' : Deck)
    (p : TrackPointer) (cur : TrackId) (hl : d.m_pLoadedTrack = some cur)
    (hparsed : (d.tracks cur).headerParsed = true)
    (h : slotFinishLoading ParseHeader d p = some d') :
    d'.m_pDuration = (d.tracks cur).duration ∧ d'.m_pBPM = (d.tracks cur).bpm ∧
    d'.m_pReplayGain = (d.tracks cur).replayGain := by
  obtain ⟨cur2, t, hl2, rfl⟩ := slotFinishLoading_eq_some ParseHeader d d' p h
  obtain ⟨d2, h2, -, -, -, hd, hb, hg, -⟩ := slotFinishLoading_spec ParseHeader d t cur hl
  rw [h] at h2
  have hdd : d' = d2 := Option.some.inj h2
  subst hdd
  have htr : d'.tracks cur =
      ((d.tracks cur).incTimesPlayed).setVisualResampleRate d.visualResample := by
    unfold slotFinishLoading at h
    simp only [hl, hparsed, Option.some.injEq] at h
    rw [← h]
    simp [Deck.record, Deck.onTrack, restoreLoop_tracks]
  rw [hd, hb, hg, htr]
  exact ⟨rfl, rfl, rfl⟩

theorem loopCueCount_saveLoopCue (t : Track) (a b : Int) :
    loopCueCount (saveLoopCue t a b).cuePoints =
      if loopCueCount t.cuePoints = 0 then 1 else loopCueCount t.cuePoints := by
  rcases last_loop_split t.cuePoints with h | ⟨pre, c, post, hcs, hc, hpost⟩
  · have h0 : loopCueCount t.cuePoints = 0 := by
      unfold loopCueCount
      rw [List.countP_eq_zero]
      intro x hx
      simpa using h x hx
    rw [saveLoopCue_no_loop t a b h, if_pos h0]
    unfold loopCueCount at h0 ⊢
    rw [List.countP_append, h0]
    rfl
  · have hpos : loopCueCount t.cuePoints ≠ 0 := by
      simp [loopCueCount, hcs, hc]
    rw [saveLoopCue_last t a b pre c post hcs hc hpost, if_neg hpos]
    simp [loopCueCount, hcs, hc]

theorem saveLoopCue_length (t : Track) (a b : Int) (h : loopCueCount t.cuePoints ≠ 0) :
    (saveLoopCue t a b).cuePoints.length = t.cuePoints.length := by
  rcases last_loop_split t.cuePoints with h0 | ⟨pre, c, post, hcs, hc, hpost⟩
  · exfalso
    apply h
    unfold loopCueCount
    rw [List.countP_eq_zero]
    intro x hx
    simpa using h0 x hx
  · rw [saveLoopCue_last t a b pre c post hcs hc hpost, hcs]
    simp

theorem slotUnloadTrack_cuePoints (d : Deck) (q : TrackPointer) (id : TrackId) :
    ((slotUnloadTrack d q).tracks id).cuePoints = (d.tracks id).cuePoints := by
  unfold slotUnloadTrack
  rcases hl : d.m_pLoadedTrack with _ | cur
  · simp [Deck.record]
  · simp only [Deck.record, Deck.onTrack, Deck.disconnectTrack]
    exact update_cuePoints d.tracks cur id _ rfl

theorem slotLoadFailed_cuePoints (d d' : Deck) (X : TrackPointer) (reason : String)
    (id : TrackId) (h : slotLoadFailed d X reason = some d') :
    (d'.tracks id).cuePoints = (d.tracks id).cuePoints := by
  obtain ⟨cur, -, rfl⟩ := slotLoadFailed_eq_some d d' X reason h
  simp only [Deck.record, Deck.onTrack]
  exact update_cuePoints d.tracks cur id _ rfl

theorem slotFinishLoading_cuePoints (ParseHeader : Track → HeaderInfo) (d d' : Deck)
    (p : TrackPointer) (id : TrackId) (h : slotFinishLoading ParseHeader d p = some d') :
    (d'.tracks id).cuePoints = (d.tracks id).cuePoints := by
  obtain ⟨cur, t, hl, rfl⟩ := slotFinishLoading_eq_some ParseHeader d d' p h
  obtain ⟨d2, h2, -, hc, -⟩ := slotFinishLoading_spec ParseHeader d t cur hl
  rw [h] at h2
  rw [Option.some.inj h2]
  exact hc id

theorem find_restorable_filter (cs : List Cue) :
    List.find? Cue.restorable cs =
      List.find? Cue.restorable (cs.filter (fun c => decide (c.type = CueType.LOOP))) := by
  rw [List.find?_filter]
  congr 1
  funext c
  by_cases hr : c.restorable = true
  · have := ((restorable_iff c).mp hr).1
    simp [hr, this]
  · simp [hr]

/-! ## The claims -/

/-- C1 (as amended): swap round trip. With track `A` loaded and an even window
`(a, b)`, `a ≤ b`, neither bound `-1`, in the loop controls, and every LOOP cue of `A`
other than its last one failing the alignment test of the restore scan (in particular
when `A` has at most one LOOP cue), the sequence `slotLoadTrack(B)`,
`slotFinishLoading(B)`, `slotLoadTrack(A)`, `slotFinishLoading(A)` for a track
`B ≠ A` runs to completion and ends with `loopInPoint = a` and `loopOutPoint = b`. -/
theorem swap_round_trip (ParseHeader : Track → HeaderInfo) (d : Deck) (A B : TrackId)
    (a b : Int) (s1 s2 : Bool) (hAB : A ≠ B) (hA : d.m_pLoadedTrack = some A)
    (hin : d.m_pLoopInPoint = a) (hout : d.m_pLoopOutPoint = b)
    (ha : a % 2 = 0) (hb : b % 2 = 0) (hab : a ≤ b) (ha1 : a ≠ -1) (hb1 : b ≠ -1)
    (hcues : ∀ c ∈ ((d.tracks A).cuePoints.filter
        (fun c => decide (c.type = CueType.LOOP))).dropLast,
      ¬ (c.position % 2 = 0 ∧ (c.position + c.length) % 2 = 0)) :
    ∃ d2 d4 : Deck,
      slotFinishLoading ParseHeader (slotLoadTrack d (some B) s1) (some B) = some d2 ∧
      slotFinishLoading ParseHeader (slotLoadTrack d2 (some A) s2) (some A) = some d4 ∧
      d4.m_pLoopInPoint = a ∧ d4.m_pLoopOutPoint = b := by
  obtain ⟨d2, h2, hl2, hc2, -⟩ := slotFinishLoading_spec ParseHeader
    (slotLoadTrack d (some B) s1) B B (slotLoadTrack_loadedTrack d (some B) s1)
  obtain ⟨d4, h4, -, -, hw4, -⟩ := slotFinishLoading_spec ParseHeader
    (slotLoadTrack d2 (some A) s2) A A (slotLoadTrack_loadedTrack d2 (some A) s2)
  refine ⟨d2, d4, h2, h4, ?_⟩
  have hguard : d.m_pLoadedTrack = some A ∧ d.m_pLoopInPoint ≠ -1 ∧ d.m_pLoopOutPoint ≠ -1 ∧
      even d.m_pLoopInPoint = true ∧ even d.m_pLoopOutPoint = true ∧
      d.m_pLoopInPoint ≤ d.m_pLoopOutPoint := by
    rw [hin, hout]
    exact ⟨hA, ha1, hb1, (even_iff a).mpr ha, (even_iff b).mpr hb, hab⟩
  have hBA : ¬ (d2.m_pLoadedTrack = some A ∧ d2.m_pLoopInPoint ≠ -1 ∧
      d2.m_pLoopOutPoint ≠ -1 ∧ even d2.m_pLoopInPoint = true ∧
      even d2.m_pLoopOutPoint = true ∧ d2.m_pLoopInPoint ≤ d2.m_pLoopOutPoint) := by
    rintro ⟨h, -⟩
    rw [hl2] at h
    exact hAB (Option.some.inj h).symm
  have hcuesA : ((slotLoadTrack d2 (some A) s2).tracks A).cuePoints
      = (saveLoopCue (d.tracks A) a b).cuePoints := by
    rw [slotLoadTrack_cuePoints, if_neg hBA, hc2 A, slotLoadTrack_cuePoints, if_pos hguard,
      hin, hout]
  rw [hcuesA, find_saveLoopCue (d.tracks A) a b ha hb hcues] at hw4
  have h1 := congrArg Prod.fst hw4
  have h2 := congrArg Prod.snd hw4
  simp only at h1 h2
  exact ⟨h1, by rw [h2]; omega⟩

/-- C1 (witness): the first LOOP cue (3, 4) of track 0 is misaligned, the window (10, 20)
comes back after the swap to track 1 and back. -/
theorem swap_round_trip_witness :
    ∃ d2 d4 : Deck,
      slotFinishLoading sampleParseHeader
        (slotLoadTrack (sampleDeck misalignedFirstLoopTracks (some 0) 10 20) (some 1) false)
        (some 1) = some d2 ∧
      slotFinishLoading sampleParseHeader (slotLoadTrack d2 (some 0) false) (some 0)
        = some d4 ∧
      d4.m_pLoopInPoint = 10 ∧ d4.m_pLoopOutPoint = 20 :=
  swap_round_trip sampleParseHeader (sampleDeck misalignedFirstLoopTracks (some 0) 10 20)
    0 1 10 20 false false (by decide) rfl rfl rfl (by decide) (by decide) (by decide)
    (by decide) (by decide) (by decide)

/-- C1 (counterexample): track 0 carries the LOOP cues (0, 4) and (100, 2) and is loaded
with the window (10, 20); after the swap to track 1 and back the deck's window is
(0, 4): the write-back went to the last LOOP cue and the restore took the first. -/
theorem swap_round_trip_counterexample :
    ((0 : TrackId) ≠ 1 ∧ (10 : Int) % 2 = 0 ∧ (20 : Int) % 2 = 0 ∧ (10 : Int) ≤ 20 ∧
      (10 : Int) ≠ -1 ∧ (20 : Int) ≠ -1) ∧
    ((slotFinishLoading sampleParseHeader
        (slotLoadTrack (sampleDeck twoLoopCueTracks (some 0) 10 20) (some 1) false)
        (some 1)).bind
      (fun d2 => slotFinishLoading sampleParseHeader (slotLoadTrack d2 (some 0) false)
        (some 0))).map (fun d4 => (d4.m_pLoopInPoint, d4.m_pLoopOutPoint))
      = some (0, 4) := by
  decide

/-- C2 (the code at the failing input): track 0 has no cue and is loaded with the window
(2, 4); `slotUnloadTrack` writes nothing back, so that after reloading track 0 its cue
list is still empty and the window is (-1, -1). -/
theorem unload_reload_loses_window :
    (slotFinishLoading sampleParseHeader
        (slotLoadTrack
          (slotUnloadTrack (sampleDeck (fun _ => sampleTrack [] 180000 128 1) (some 0) 2 4)
            (some 0))
          (some 0) false)
        (some 0)).map
      (fun d => (d.m_pLoopInPoint, d.m_pLoopOutPoint, (d.tracks 0).cuePoints))
      = some (-1, -1, []) := by
  decide

/-- C3 (counterexample): after `slotLoadTrack(0)` and `slotLoadTrack(1)` the deck shows
duration 0, the window (-1, -1) and no registry update; the late `slotFinishLoading(0)`
sets the duration to 200000, the window to (2, 4), updates the registry and emits
`newTrackLoaded`. -/
theorem stale_completion_counterexample :
    (supersededLoadDeck.m_pDuration, supersededLoadDeck.m_pLoopInPoint,
      supersededLoadDeck.m_pLoopOutPoint, supersededLoadDeck.registryUpdates,
      supersededLoadDeck.signals)
      = (0, -1, -1, [],
          [Signal.loadTrack (some 0), Signal.unloadingTrack (some 0),
           Signal.loadTrack (some 1)]) ∧
    (slotFinishLoading sampleParseHeader supersededLoadDeck (some 0)).map
      (fun d => (d.m_pDuration, d.m_pLoopInPoint, d.m_pLoopOutPoint, d.registryUpdates,
        d.signals))
      = some (200000, 2, 4, [some 1],
          [Signal.loadTrack (some 0), Signal.unloadingTrack (some 0),
           Signal.loadTrack (some 1), Signal.newTrackLoaded (some 1)]) := by
  constructor
  · rfl
  · rfl

/-- C3 (as amended): after `slotLoadTrack(A)` then `slotLoadTrack(B)`, a late
`slotFinishLoading(A)` runs to completion as the completion of the held track `B`: the
deck still holds `B`, the duration, tempo and replay-gain controls hold the values of
`B`'s fields, and the only actions are one registry update with `B` followed by
`newTrackLoaded(B)`. -/
theorem stale_completion_finalises_held_track (ParseHeader : Track → HeaderInfo) (d : Deck)
    (A B : TrackId) (s1 s2 : Bool) :
    ∃ d3 : Deck,
      slotFinishLoading ParseHeader
        (slotLoadTrack (slotLoadTrack d (some A) s1) (some B) s2) (some A) = some d3 ∧
      d3.m_pLoadedTrack = some B ∧
      d3.m_pDuration = (d3.tracks B).duration ∧
      d3.m_pBPM = (d3.tracks B).bpm ∧
      d3.m_pReplayGain = (d3.tracks B).replayGain ∧
      d3.events = (slotLoadTrack (slotLoadTrack d (some A) s1) (some B) s2).events ++
        [Event.setTrackInfo (some B), Event.emitted (Signal.newTrackLoaded (some B))] := by
  obtain ⟨d3, h3, hl, -, -, hd, hb, hg, he⟩ := slotFinishLoading_spec ParseHeader
    (slotLoadTrack (slotLoadTrack d (some A) s1) (some B) s2) A B
    (slotLoadTrack_loadedTrack _ (some B) s2)
  exact ⟨d3, h3, hl, hd, hb, hg, he⟩

/-- C4 (the code at the failing input): the loaded track carries the LOOP cue with
position 10 and length -4; `slotFinishLoading` makes (10, 6) the deck's loop window,
an inverted window. -/
theorem inverted_loop_cue_restored :
    (slotFinishLoading sampleParseHeader (sampleDeck invertedLoopTracks (some 0) (-1) (-1))
        (some 0)).map (fun d => (d.m_pLoopInPoint, d.m_pLoopOutPoint)) = some (10, 6) ∧
    ¬ ((10 : Int) ≤ 6) := by
  decide

/-- C5: when a track is loaded and the loop controls hold a pair `(a, b)` with `a = -1`,
or `b = -1`, or `a` odd, or `b` odd, or `a > b`, `slotLoadTrack` leaves the cue list of
the previously loaded track unchanged. -/
theorem invalid_window_not_written_back (d : Deck) (old : TrackId) (track : TrackPointer)
    (s : Bool) (a b : Int) (_hl : d.m_pLoadedTrack = some old)
    (hin : d.m_pLoopInPoint = a) (hout : d.m_pLoopOutPoint = b)
    (hbad : a = -1 ∨ b = -1 ∨ a % 2 = 1 ∨ b % 2 = 1 ∨ a > b) :
    ((slotLoadTrack d track s).tracks old).cuePoints = (d.tracks old).cuePoints := by
  rw [slotLoadTrack_cuePoints, if_neg]
  rintro ⟨-, h1, h2, h3, h4, h5⟩
  rw [hin] at h1 h3 h5
  rw [hout] at h2 h4 h5
  rw [even_iff] at h3 h4
  omega

/-- C5 (witness): the window (3, 8) has an odd start. -/
theorem invalid_window_not_written_back_witness :
    ((slotLoadTrack (sampleDeck oneLoopCueTracks (some 0) 3 8) (some 1) false).tracks 0).cuePoints
      = ((sampleDeck oneLoopCueTracks (some 0) 3 8).tracks 0).cuePoints :=
  invalid_window_not_written_back (sampleDeck oneLoopCueTracks (some 0) 3 8) 0 (some 1) false
    3 8 rfl rfl rfl (by decide)

/-- C6: when a track is loaded and the loop controls hold a valid window `(a, b)`
(both even, neither `-1`, `a ≤ b`) of `int` values whose difference `b - a` is an `int`
value too (the subtraction of line 134 does not overflow), after `slotLoadTrack` the
previously loaded track has the LOOP cue with position `a` and length `b - a`; if it
had a LOOP cue before, its cue list is the old one with one LOOP cue replaced by that
cue (same number of cues, every other cue unchanged); if it had none, its cue list is
the old one followed by that one new cue. -/
theorem write_back_postcondition (d : Deck) (old : TrackId) (track : TrackPointer)
    (s : Bool) (a b : Int) (hl : d.m_pLoadedTrack = some old)
    (hin : d.m_pLoopInPoint = a) (hout : d.m_pLoopOutPoint = b)
    (ha : a % 2 = 0) (hb : b % 2 = 0) (ha1 : a ≠ -1) (hb1 : b ≠ -1) (hab : a ≤ b)
    (_hia : isIntValue a) (_hib : isIntValue b) (_hfit : isIntValue (b - a)) :
    ({ type := CueType.LOOP, position := a, length := b - a } : Cue) ∈
        ((slotLoadTrack d track s).tracks old).cuePoints ∧
    ((∃ c ∈ (d.tracks old).cuePoints, c.type = CueType.LOOP) →
      ((slotLoadTrack d track s).tracks old).cuePoints.length
          = (d.tracks old).cuePoints.length ∧
      ∃ (i : Nat) (c : Cue), (d.tracks old).cuePoints[i]? = some c ∧ c.type = CueType.LOOP ∧
        ((slotLoadTrack d track s).tracks old).cuePoints =
          (d.tracks old).cuePoints.set i
            { type := CueType.LOOP, position := a, length := b - a }) ∧
    ((∀ c ∈ (d.tracks old).cuePoints, c.type ≠ CueType.LOOP) →
      ((slotLoadTrack d track s).tracks old).cuePoints =
        (d.tracks old).cuePoints ++
          [{ type := CueType.LOOP, position := a, length := b - a }]) := by
  have hguard : d.m_pLoadedTrack = some old ∧ d.m_pLoopInPoint ≠ -1 ∧
      d.m_pLoopOutPoint ≠ -1 ∧ even d.m_pLoopInPoint = true ∧
      even d.m_pLoopOutPoint = true ∧ d.m_pLoopInPoint ≤ d.m_pLoopOutPoint := by
    rw [hin, hout]
    exact ⟨hl, ha1, hb1, (even_iff a).mpr ha, (even_iff b).mpr hb, hab⟩
  rw [slotLoadTrack_cuePoints, if_pos hguard, hin, hout]
  rcases last_loop_split (d.tracks old).cuePoints with h | ⟨pre, c, post, hcs, hc, hpost⟩
  · rw [saveLoopCue_no_loop _ a b h]
    refine ⟨by simp, ?_, fun _ => rfl⟩
    rintro ⟨c, hc, hloop⟩
    exact absurd hloop (h c hc)
  · rw [saveLoopCue_last _ a b pre c post hcs hc hpost]
    refine ⟨by simp, ?_, ?_⟩
    · intro _
      refine ⟨by simp [hcs], pre.length, c, ?_, hc, ?_⟩
      · rw [hcs, getElem?_append_cons]
      · rw [hcs, set_append_cons]
    · intro hno
      exact absurd hc (hno c (by simp [hcs]))

/-- C6 (witness): the window (10, 20) on a track with one LOOP cue. -/
theorem write_back_postcondition_witness :
    ({ type := CueType.LOOP, position := 10, length := 20 - 10 } : Cue) ∈
      ((slotLoadTrack (sampleDeck oneLoopCueTracks (some 0) 10 20) (some 1) false).tracks
        0).cuePoints :=
  (write_back_postcondition (sampleDeck oneLoopCueTracks (some 0) 10 20) 0 (some 1) false
    10 20 rfl rfl rfl (by decide) (by decide) (by decide) (by decide) (by decide)
    ⟨by decide, by decide⟩ ⟨by decide, by decide⟩ ⟨by decide, by decide⟩).1

/-- C7: when the deck holds a track, `slotFinishLoading` for a track whose cue list
contains no LOOP cue runs to completion and leaves `loopInPoint = loopOutPoint = -1`,
whatever the loop controls held before. -/
theorem no_loop_cue_resets_window (ParseHeader : Track → HeaderInfo) (d : Deck)
    (t cur : TrackId) (hl : d.m_pLoadedTrack = some cur)
    (hno : ∀ c ∈ (d.tracks t).cuePoints, c.type ≠ CueType.LOOP) :
    ∃ d' : Deck, slotFinishLoading ParseHeader d (some t) = some d' ∧
      d'.m_pLoopInPoint = -1 ∧ d'.m_pLoopOutPoint = -1 := by
  obtain ⟨d', h1, -, -, hw, -⟩ := slotFinishLoading_spec ParseHeader d t cur hl
  have hnone : List.find? Cue.restorable (d.tracks t).cuePoints = none := by
    rw [List.find?_eq_none]
    intro x hx hr
    exact hno x hx ((restorable_iff x).mp hr).1
  rw [hnone] at hw
  exact ⟨d', h1, congrArg Prod.fst hw, congrArg Prod.snd hw⟩

/-- C7 (witness): the controls held (10, 20) before. -/
theorem no_loop_cue_resets_window_witness :
    ∃ d' : Deck,
      slotFinishLoading sampleParseHeader (sampleDeck noLoopCueTracks (some 0) 10 20) (some 0)
        = some d' ∧
      d'.m_pLoopInPoint = -1 ∧ d'.m_pLoopOutPoint = -1 :=
  no_loop_cue_resets_window sampleParseHeader (sampleDeck noLoopCueTracks (some 0) 10 20)
    0 0 rfl (by decide)

/-- C8: when the deck holds a track and the cue list of the completed track is
`before ++ c :: after` with `c` a LOOP cue whose position and position + length are
both even, and every LOOP cue of `before` fails that alignment test, `slotFinishLoading`
runs to completion with `loopInPoint = c.position` and
`loopOutPoint = c.position + c.length`, whatever cues follow `c`; the position and the
length of `c` are `int` values and so is their sum (the addition of line 231 does not
overflow). -/
theorem first_valid_match (ParseHeader : Track → HeaderInfo) (d : Deck) (t cur : TrackId)
    (before : List Cue) (c : Cue) (after : List Cue)
    (hl : d.m_pLoadedTrack = some cur)
    (hcs : (d.tracks t).cuePoints = before ++ c :: after)
    (hc : c.type = CueType.LOOP)
    (hp : c.position % 2 = 0) (he : (c.position + c.length) % 2 = 0)
    (hbefore : ∀ x ∈ before, x.type = CueType.LOOP →
      ¬ (x.position % 2 = 0 ∧ (x.position + x.length) % 2 = 0))
    (_hip : isIntValue c.position) (_hil : isIntValue c.length)
    (_hfit : isIntValue (c.position + c.length)) :
    ∃ d' : Deck, slotFinishLoading ParseHeader d (some t) = some d' ∧
      d'.m_pLoopInPoint = c.position ∧ d'.m_pLoopOutPoint = c.position + c.length := by
  obtain ⟨d', h1, -, -, hw, -⟩ := slotFinishLoading_spec ParseHeader d t cur hl
  have hnone : List.find? Cue.restorable before = none := by
    rw [List.find?_eq_none]
    intro x hx hr
    have hx2 := (restorable_iff x).mp hr
    exact hbefore x hx hx2.1 hx2.2
  have hfind : List.find? Cue.restorable (d.tracks t).cuePoints = some c := by
    rw [hcs, List.find?_append, hnone,
      List.find?_cons_of_pos _ ((restorable_iff c).mpr ⟨hc, hp, he⟩)]
    rfl
  rw [hfind] at hw
  exact ⟨d', h1, congrArg Prod.fst hw, congrArg Prod.snd hw⟩

/-- C8 (witness): the cue (3, 5) is misaligned, (8, 6) is the first aligned one and
(100, 2) follows it. -/
theorem first_valid_match_witness :
    ∃ d' : Deck,
      slotFinishLoading sampleParseHeader (sampleDeck threeLoopCueTracks (some 0) (-1) (-1))
        (some 0) = some d' ∧
      d'.m_pLoopInPoint = 8 ∧ d'.m_pLoopOutPoint = 8 + 6 :=
  first_valid_match sampleParseHeader (sampleDeck threeLoopCueTracks (some 0) (-1) (-1)) 0 0
    [{ type := CueType.LOOP, position := 3, length := 5 }]
    { type := CueType.LOOP, position := 8, length := 6 }
    [{ type := CueType.LOOP, position := 100, length := 2 }]
    rfl rfl rfl (by decide) (by decide) (by decide)
    ⟨by decide, by decide⟩ ⟨by decide, by decide⟩ ⟨by decide, by decide⟩

/-- C9: when the deck holds a (pending) track, `slotLoadFailed(X, reason)` runs to
completion, leaves the duration, tempo, replay-gain, loop-in and loop-out controls
unchanged and makes no update of the Now-Playing Registry. -/
theorem load_failed_leaves_controls (d : Deck) (cur X : TrackId) (reason : String)
    (hl : d.m_pLoadedTrack = some cur) :
    ∃ d' : Deck, slotLoadFailed d (some X) reason = some d' ∧
      d'.m_pDuration = d.m_pDuration ∧ d'.m_pBPM = d.m_pBPM ∧
      d'.m_pReplayGain = d.m_pReplayGain ∧
      d'.m_pLoopInPoint = d.m_pLoopInPoint ∧ d'.m_pLoopOutPoint = d.m_pLoopOutPoint ∧
      d'.registryUpdates = d.registryUpdates := by
  refine ⟨((d.onTrack cur (fun t => t.setLoaded false)).record
    (Event.setLoaded cur false)).record (Event.warning reason), ?_, rfl, rfl, rfl, rfl, rfl, ?_⟩
  · simp only [slotLoadFailed, hl]
  · simp [Deck.registryUpdates, Deck.record, Deck.onTrack, List.filterMap_append]

/-- C9 (witness): track 1 is pending on a deck that still shows the window (10, 20). -/
theorem load_failed_leaves_controls_witness :
    ∃ d' : Deck,
      slotLoadFailed (sampleDeck oneLoopCueTracks (some 1) 10 20) (some 1) "cannot open file"
        = some d' ∧
      d'.m_pDuration = (sampleDeck oneLoopCueTracks (some 1) 10 20).m_pDuration ∧
      d'.m_pBPM = (sampleDeck oneLoopCueTracks (some 1) 10 20).m_pBPM ∧
      d'.m_pReplayGain = (sampleDeck oneLoopCueTracks (some 1) 10 20).m_pReplayGain ∧
      d'.m_pLoopInPoint = (sampleDeck oneLoopCueTracks (some 1) 10 20).m_pLoopInPoint ∧
      d'.m_pLoopOutPoint = (sampleDeck oneLoopCueTracks (some 1) 10 20).m_pLoopOutPoint ∧
      d'.registryUpdates = (sampleDeck oneLoopCueTracks (some 1) 10 20).registryUpdates :=
  load_failed_leaves_controls (sampleDeck oneLoopCueTracks (some 1) 10 20) 1 1
    "cannot open file" rfl

/-- C10 (the code at the failing input): on a freshly constructed deck,
`slotLoadTrack(0)` followed by `slotLoadFailed(0, reason)` leaves track 0 marked not
loaded, but `getLoadedTrack` still returns track 0: the deck is not empty. -/
theorem load_failed_keeps_track :
    (slotLoadFailed
        (slotLoadTrack (construct noLoopCueTracks (-1) (-1) 0 0 0) (some 0) false)
        (some 0) "cannot open file").map
      (fun d => (getLoadedTrack d, (d.tracks 0).loaded)) = some (some 0, false) := by
  rfl

/-- C11 (counterexample): an empty deck whose loop controls hold (10, 20);
`slotUnloadTrack` emits no signal but sets the loop controls to (-1, -1) and makes a
registry update. -/
theorem unload_empty_deck_counterexample :
    emptyDeckWithWindow.m_pLoadedTrack = none ∧
    (emptyDeckWithWindow.m_pLoopInPoint, emptyDeckWithWindow.m_pLoopOutPoint) = (10, 20) ∧
    ((slotUnloadTrack emptyDeckWithWindow none).m_pLoopInPoint,
      (slotUnloadTrack emptyDeckWithWindow none).m_pLoopOutPoint) = (-1, -1) ∧
    (slotUnloadTrack emptyDeckWithWindow none).signals = emptyDeckWithWindow.signals ∧
    emptyDeckWithWindow.registryUpdates = [] ∧
    (slotUnloadTrack emptyDeckWithWindow none).registryUpdates = [none] := by
  refine ⟨rfl, ?_, ?_, rfl, rfl, rfl⟩ <;> decide

/-- C11 (as amended): on a deck that holds no track, `slotUnloadTrack` emits no signal,
leaves the track store, the connections and the empty reference as they are, sets the
five controls to their sentinels (so that none of them changes when they already hold
the sentinels) and its only action is one registry update with the empty reference. -/
theorem unload_empty_deck (d : Deck) (t : TrackPointer) (h : d.m_pLoadedTrack = none) :
    (slotUnloadTrack d t).signals = d.signals ∧
    (slotUnloadTrack d t).events = d.events ++ [Event.setTrackInfo none] ∧
    (slotUnloadTrack d t).tracks = d.tracks ∧
    (slotUnloadTrack d t).m_pLoadedTrack = none ∧
    (slotUnloadTrack d t).bpmConnections = d.bpmConnections ∧
    (slotUnloadTrack d t).replayGainConnections = d.replayGainConnections ∧
    (slotUnloadTrack d t).visualResample = d.visualResample ∧
    ((slotUnloadTrack d t).m_pDuration = 0 ∧ (slotUnloadTrack d t).m_pBPM = 0 ∧
      (slotUnloadTrack d t).m_pReplayGain = 0 ∧ (slotUnloadTrack d t).m_pLoopInPoint = -1 ∧
      (slotUnloadTrack d t).m_pLoopOutPoint = -1) ∧
    (sentinelInvariant d →
      (slotUnloadTrack d t).m_pDuration = d.m_pDuration ∧
      (slotUnloadTrack d t).m_pBPM = d.m_pBPM ∧
      (slotUnloadTrack d t).m_pReplayGain = d.m_pReplayGain ∧
      (slotUnloadTrack d t).m_pLoopInPoint = d.m_pLoopInPoint ∧
      (slotUnloadTrack d t).m_pLoopOutPoint = d.m_pLoopOutPoint) := by
  rw [slotUnloadTrack_empty d t h]
  refine ⟨?_, rfl, rfl, rfl, rfl, rfl, rfl, ⟨rfl, rfl, rfl, rfl, rfl⟩, ?_⟩
  · simp [Deck.signals, List.filterMap_append]
  · intro hinv
    obtain ⟨h1, h2, h3, h4, h5⟩ := hinv h
    exact ⟨h3.symm, h4.symm, h5.symm, h1.symm, h2.symm⟩

/-- C11 (witness): a freshly constructed deck whose controls hold the sentinels. -/
theorem unload_empty_deck_witness :
    (slotUnloadTrack (construct noLoopCueTracks (-1) (-1) 0 0 0) none).signals
      = (construct noLoopCueTracks (-1) (-1) 0 0 0).signals ∧
    (slotUnloadTrack (construct noLoopCueTracks (-1) (-1) 0 0 0) none).m_pLoopInPoint
      = (construct noLoopCueTracks (-1) (-1) 0 0 0).m_pLoopInPoint :=
  ⟨(unload_empty_deck (construct noLoopCueTracks (-1) (-1) 0 0 0) none rfl).1,
   ((unload_empty_deck (construct noLoopCueTracks (-1) (-1) 0 0 0) none rfl).2.2.2.2.2.2.2.2
      (fun _ => ⟨rfl, rfl, rfl, rfl, rfl⟩)).2.2.2.1⟩

/-- C12 (counterexample): the deck already holds track 0 with the window (10, 20) in its
loop controls; track 0 has its header parsed and the single LOOP cue (88200, 44100).
`slotLoadTrack(0)` first writes the window into that cue, and `slotFinishLoading(0)`
ends with the window (10, 20), not (88200, 132300). -/
theorem metadata_finalisation_counterexample :
    ((sampleDeck scenarioTracks (some 0) 10 20).tracks 0).headerParsed = true ∧
    ((sampleDeck scenarioTracks (some 0) 10 20).tracks 0).cuePoints.filter
        (fun c => decide (c.type = CueType.LOOP))
      = [{ type := CueType.LOOP, position := 88200, length := 44100 }] ∧
    (slotFinishLoading sampleParseHeader
        (slotLoadTrack (sampleDeck scenarioTracks (some 0) 10 20) (some 0) false)
        (some 0)).map (fun d => (d.m_pLoopInPoint, d.m_pLoopOutPoint)) = some (10, 20) := by
  decide

/-- C12 (as amended): for a track `T` whose header is parsed and whose only LOOP cue is
`(p, l)` with `p` and `p + l` even, `p`, `l` and `p + l` being `int` values (the
addition of line 231 does not overflow), on a deck that does not already hold `T` with
a valid window in its loop controls, `slotLoadTrack(T)` followed by
`slotFinishLoading(T)` runs to completion and leaves the duration, tempo and
replay-gain controls at the values of `T`'s fields, `loopInPoint = p` and
`loopOutPoint = p + l`. -/
theorem metadata_finalisation (ParseHeader : Track → HeaderInfo) (d : Deck) (T : TrackId)
    (s : Bool) (p l : Int)
    (hparsed : (d.tracks T).headerParsed = true)
    (hloop : (d.tracks T).cuePoints.filter (fun c => decide (c.type = CueType.LOOP))
      = [{ type := CueType.LOOP, position := p, length := l }])
    (hp : p % 2 = 0) (hpl : (p + l) % 2 = 0)
    (_hip : isIntValue p) (_hil : isIntValue l) (_hfit : isIntValue (p + l))
    (hnew : d.m_pLoadedTrack = some T →
      ¬ (d.m_pLoopInPoint ≠ -1 ∧ d.m_pLoopOutPoint ≠ -1 ∧ d.m_pLoopInPoint % 2 = 0 ∧
          d.m_pLoopOutPoint % 2 = 0 ∧ d.m_pLoopInPoint ≤ d.m_pLoopOutPoint)) :
    ∃ d' : Deck,
      slotFinishLoading ParseHeader (slotLoadTrack d (some T) s) (some T) = some d' ∧
      d'.m_pDuration = (d.tracks T).duration ∧ d'.m_pBPM = (d.tracks T).bpm ∧
      d'.m_pReplayGain = (d.tracks T).replayGain ∧
      d'.m_pLoopInPoint = p ∧ d'.m_pLoopOutPoint = p + l := by
  have hl := slotLoadTrack_loadedTrack d (some T) s
  obtain ⟨hf1, hf2, hf3, hf4⟩ := slotLoadTrack_fields d (some T) s T
  obtain ⟨d', h', -, -, hw, -⟩ := slotFinishLoading_spec ParseHeader
    (slotLoadTrack d (some T) s) T T hl
  obtain ⟨hd, hb, hg⟩ := slotFinishLoading_parsed ParseHeader (slotLoadTrack d (some T) s) d'
    (some T) T hl (by rw [hf4, hparsed]) h'
  have hguard : ¬ (d.m_pLoadedTrack = some T ∧ d.m_pLoopInPoint ≠ -1 ∧
      d.m_pLoopOutPoint ≠ -1 ∧ even d.m_pLoopInPoint = true ∧
      even d.m_pLoopOutPoint = true ∧ d.m_pLoopInPoint ≤ d.m_pLoopOutPoint) := by
    rintro ⟨h0, h1, h2, h3, h4, h5⟩
    exact hnew h0 ⟨h1, h2, (even_iff _).mp h3, (even_iff _).mp h4, h5⟩
  have hr : Cue.restorable { type := CueType.LOOP, position := p, length := l } = true :=
    (restorable_iff _).mpr ⟨rfl, hp, hpl⟩
  rw [slotLoadTrack_cuePoints, if_neg hguard, find_restorable_filter, hloop,
    List.find?_cons_of_pos _ hr] at hw
  refine ⟨d', h', ?_, ?_, ?_, congrArg Prod.fst hw, congrArg Prod.snd hw⟩
  · rw [hd, hf1]
  · rw [hb, hf2]
  · rw [hg, hf3]

/-- C12 (witness): the scenario of the specification on a freshly constructed deck:
duration 180000, tempo 128, LOOP cue (88200, 44100), hence `loopOutPoint = 132300`. -/
theorem metadata_finalisation_witness :
    ∃ d' : Deck,
      slotFinishLoading sampleParseHeader
        (slotLoadTrack (construct scenarioTracks (-1) (-1) 0 0 0) (some 0) false) (some 0)
        = some d' ∧
      d'.m_pDuration = 180000 ∧ d'.m_pBPM = 128 ∧ d'.m_pReplayGain = 1 ∧
      d'.m_pLoopInPoint = 88200 ∧ d'.m_pLoopOutPoint = 132300 :=
  metadata_finalisation sampleParseHeader (construct scenarioTracks (-1) (-1) 0 0 0) 0 false
    88200 44100 rfl (by decide) (by decide) (by decide)
    ⟨by decide, by decide⟩ ⟨by decide, by decide⟩ ⟨by decide, by decide⟩
    (fun h => nomatch h)

/-- C13: the empty-deck sentinel invariant is preserved by `slotLoadTrack` (called with
a track), by `slotLoadFailed`, by `slotUnloadTrack` and by `slotFinishLoading`; the two
completion handlers return a state whenever the deck holds a track and their argument
is a track; and `slotUnloadTrack` establishes the invariant from every state:
afterwards the deck holds no track and the five controls hold their sentinels. -/
theorem sentinel_invariant_preserved (ParseHeader : Track → HeaderInfo) (d : Deck)
    (T : TrackId) (s : Bool) (X p q : TrackPointer) (reason : String) :
    (sentinelInvariant d →
      sentinelInvariant (slotLoadTrack d (some T) s) ∧
      (∀ d', slotLoadFailed d X reason = some d' → sentinelInvariant d') ∧
      sentinelInvariant (slotUnloadTrack d q) ∧
      (∀ d', slotFinishLoading ParseHeader d p = some d' → sentinelInvariant d')) ∧
    (∀ cur, d.m_pLoadedTrack = some cur →
      (∃ d', slotLoadFailed d (some T) reason = some d') ∧
      (∃ d', slotFinishLoading ParseHeader d (some T) = some d')) ∧
    ((slotUnloadTrack d q).m_pLoadedTrack = none ∧
      (slotUnloadTrack d q).m_pLoopInPoint = -1 ∧
      (slotUnloadTrack d q).m_pLoopOutPoint = -1 ∧
      (slotUnloadTrack d q).m_pDuration = 0 ∧ (slotUnloadTrack d q).m_pBPM = 0 ∧
      (slotUnloadTrack d q).m_pReplayGain = 0) := by
  refine ⟨fun _ => ⟨?_, ?_, ?_, ?_⟩, ?_, slotUnloadTrack_sentinels d q⟩
  · intro hnone
    rw [slotLoadTrack_loadedTrack] at hnone
    exact absurd hnone (by simp)
  · intro d' hd' hnone
    obtain ⟨cur, -, rfl⟩ := slotLoadFailed_eq_some d d' X reason hd'
    obtain ⟨cur2, hl2, -⟩ := slotLoadFailed_eq_some d _ X reason hd'
    simp [Deck.record, Deck.onTrack, hl2] at hnone
  · intro _
    exact (slotUnloadTrack_sentinels d q).2
  · intro d' hd' hnone
    obtain ⟨cur, t, hl, rfl⟩ := slotFinishLoading_eq_some ParseHeader d d' p hd'
    obtain ⟨d2, h2, hl2, -⟩ := slotFinishLoading_spec ParseHeader d t cur hl
    rw [hd'] at h2
    rw [Option.some.inj h2, hl2] at hnone
    exact absurd hnone (by simp)
  · intro cur hl
    refine ⟨⟨_, slotLoadFailed_of_loaded d cur T reason hl⟩, ?_⟩
    obtain ⟨d2, h2, -⟩ := slotFinishLoading_spec ParseHeader d T cur hl
    exact ⟨d2, h2⟩

/-- C13 (witness): a freshly constructed deck satisfies the invariant, and so does the
state after `slotLoadTrack(0)`. -/
theorem sentinel_invariant_preserved_witness :
    sentinelInvariant
      (slotLoadTrack (construct noLoopCueTracks (-1) (-1) 0 0 0) (some 0) false) :=
  ((sentinel_invariant_preserved sampleParseHeader (construct noLoopCueTracks (-1) (-1) 0 0 0)
    0 false none none none "cannot open file").1 (fun _ => ⟨rfl, rfl, rfl, rfl, rfl⟩)).1

/-- C14: the signals emitted by `slotLoadTrack(B)` are exactly `unloadingTrack(A)` then
`loadTrack(B)` when the deck holds a track `A`, and exactly `loadTrack(B)` when it is
empty; in the first case the actions of the slot are, in order, `A->setLoaded(false)`,
`unloadingTrack(A)`, `loadTrack(B)`, and `A` is marked not loaded afterwards. -/
theorem load_notification_order (d : Deck) (B : TrackId) (s : Bool) :
    (∀ A, d.m_pLoadedTrack = some A →
      (slotLoadTrack d (some B) s).signals =
        d.signals ++ [Signal.unloadingTrack (some A), Signal.loadTrack (some B)] ∧
      (slotLoadTrack d (some B) s).events =
        d.events ++ [Event.setLoaded A false, Event.emitted (Signal.unloadingTrack (some A)),
          Event.emitted (Signal.loadTrack (some B))] ∧
      ((slotLoadTrack d (some B) s).tracks A).loaded = false) ∧
    (d.m_pLoadedTrack = none →
      (slotLoadTrack d (some B) s).signals = d.signals ++ [Signal.loadTrack (some B)] ∧
      (slotLoadTrack d (some B) s).events =
        d.events ++ [Event.emitted (Signal.loadTrack (some B))]) := by
  have hev := slotLoadTrack_events d (some B) s
  constructor
  · intro A hl
    rw [hl] at hev
    refine ⟨?_, by simpa using hev, slotLoadTrack_loaded_flag d (some B) s A hl⟩
    simp [Deck.signals, hev, List.filterMap_append]
  · intro hl
    rw [hl] at hev
    refine ⟨?_, by simpa using hev⟩
    simp [Deck.signals, hev, List.filterMap_append]

/-- C14 (witness): a deck holding track 0 is asked to load track 1. -/
theorem load_notification_order_witness :
    (slotLoadTrack (sampleDeck noLoopCueTracks (some 0) (-1) (-1)) (some 1) false).signals =
      (sampleDeck noLoopCueTracks (some 0) (-1) (-1)).signals ++
        [Signal.unloadingTrack (some 0), Signal.loadTrack (some 1)] :=
  ((load_notification_order (sampleDeck noLoopCueTracks (some 0) (-1) (-1)) 1 false).1 0
    rfl).1

/-- C15 (the code at the failing input): the deck holds track 0, which has no cue, with
the window (2, 4) in its loop controls; the destructor marks track 0 not loaded, emits
`unloadingTrack` and releases the reference, but track 0 still has no cue: the window
is not persisted. -/
theorem destructor_drops_window :
    ((destructor deckWithUnsavedWindow).tracks 0).cuePoints = [] ∧
    ((destructor deckWithUnsavedWindow).tracks 0).loaded = false ∧
    (destructor deckWithUnsavedWindow).events =
      [Event.setLoaded 0 false, Event.emitted (Signal.unloadingTrack (some 0))] ∧
    (destructor deckWithUnsavedWindow).m_pLoadedTrack = none := by
  refine ⟨rfl, rfl, rfl, rfl⟩

/-- C16: `slotLoadTrack` leaves the duration, tempo, replay-gain, loop-in and loop-out
controls exactly as they were, and the deck already holds the new track afterwards. -/
theorem swap_load_keeps_controls (d : Deck) (T : TrackId) (s : Bool) :
    (slotLoadTrack d (some T) s).m_pDuration = d.m_pDuration ∧
    (slotLoadTrack d (some T) s).m_pBPM = d.m_pBPM ∧
    (slotLoadTrack d (some T) s).m_pReplayGain = d.m_pReplayGain ∧
    (slotLoadTrack d (some T) s).m_pLoopInPoint = d.m_pLoopInPoint ∧
    (slotLoadTrack d (some T) s).m_pLoopOutPoint = d.m_pLoopOutPoint ∧
    getLoadedTrack (slotLoadTrack d (some T) s) = some T := by
  obtain ⟨h1, h2, h3, h4, h5⟩ := slotLoadTrack_controls d (some T) s
  exact ⟨h3, h4, h5, h1, h2, slotLoadTrack_loadedTrack d (some T) s⟩

/-- C17: a track with at most one LOOP cue still has at most one after `slotLoadTrack`,
`slotUnloadTrack`, `slotLoadFailed` and `slotFinishLoading`; and when it has a LOOP cue,
`slotLoadTrack` adds no cue to it (same number of cues, same number of LOOP cues). -/
theorem at_most_one_loop_cue (ParseHeader : Track → HeaderInfo) (d : Deck) (id : TrackId)
    (track X p q : TrackPointer) (s : Bool) (reason : String) :
    (loopCueCount (d.tracks id).cuePoints ≤ 1 →
      loopCueCount ((slotLoadTrack d track s).tracks id).cuePoints ≤ 1 ∧
      loopCueCount ((slotUnloadTrack d q).tracks id).cuePoints ≤ 1 ∧
      (∀ d', slotLoadFailed d X reason = some d' →
        loopCueCount (d'.tracks id).cuePoints ≤ 1) ∧
      (∀ d', slotFinishLoading ParseHeader d p = some d' →
        loopCueCount (d'.tracks id).cuePoints ≤ 1)) ∧
    (loopCueCount (d.tracks id).cuePoints ≠ 0 →
      ((slotLoadTrack d track s).tracks id).cuePoints.length
        = (d.tracks id).cuePoints.length ∧
      loopCueCount ((slotLoadTrack d track s).tracks id).cuePoints
        = loopCueCount (d.tracks id).cuePoints) := by
  constructor
  · intro h
    refine ⟨?_, ?_, ?_, ?_⟩
    · rw [slotLoadTrack_cuePoints]
      split
      · rw [loopCueCount_saveLoopCue]
        split
        · exact Nat.le_refl 1
        · exact h
      · exact h
    · rw [slotUnloadTrack_cuePoints]
      exact h
    · intro d' hd'
      rw [slotLoadFailed_cuePoints d d' X reason id hd']
      exact h
    · intro d' hd'
      rw [slotFinishLoading_cuePoints ParseHeader d d' p id hd']
      exact h
  · intro h
    rw [slotLoadTrack_cuePoints]
    split
    · exact ⟨saveLoopCue_length _ _ _ h, by rw [loopCueCount_saveLoopCue, if_neg h]⟩
    · exact ⟨rfl, rfl⟩

/-- C17 (witness): a deck holding track 0, which has one LOOP cue, with the valid window
(10, 20), is asked to load track 1. -/
theorem at_most_one_loop_cue_witness :
    loopCueCount
      ((slotLoadTrack (sampleDeck oneLoopCueTracks (some 0) 10 20) (some 1) false).tracks
        0).cuePoints ≤ 1 :=
  ((at_most_one_loop_cue sampleParseHeader (sampleDeck oneLoopCueTracks (some 0) 10 20) 0
    (some 1) none none none false "cannot open file").1 (by decide)).1

/-- C18 (the code at the failing input): on a freshly constructed deck,
`slotLoadTrack(0)` followed by `slotUnloadTrack` leaves the deck empty, and the
completion handlers `slotFinishLoading(0)` and `slotLoadFailed(0, reason)` that follow
the dispatch then dereference the empty `m_pLoadedTrack`. -/
theorem completion_after_unload_dereferences_empty :
    getLoadedTrack
      (slotUnloadTrack
        (slotLoadTrack (construct noLoopCueTracks (-1) (-1) 0 0 0) (some 0) false) (some 0))
      = none ∧
    (slotFinishLoading sampleParseHeader
      (slotUnloadTrack
        (slotLoadTrack (construct noLoopCueTracks (-1) (-1) 0 0 0) (some 0) false) (some 0))
      (some 0)).isNone = true ∧
    (slotLoadFailed
      (slotUnloadTrack
        (slotLoadTrack (construct noLoopCueTracks (-1) (-1) 0 0 0) (some 0) false) (some 0))
      (some 0) "cannot open file").isNone = true := by
  refine ⟨rfl, rfl, rfl⟩

end BaseTrackPlayer
